import Mathlib

/-!
Shallow embedding of the UDP reliable-file-transfer application
(`src/application.py`): packet codec, sender sliding-window engine,
receiver go-back-N engine, and socket setup traces.  Bytes are modelled
as natural numbers below 256 in lists; u16/u32 fields are encoded
little-endian, matching the native struct layout `HHH` / `I` used by the
source on its reference platform.
-/

namespace App

/-- `HEADER_SIZE = 6` from the source. -/
def HEADER_SIZE : Nat := 6

/-- `FLAGS_SYN = 0x1` from the source. -/
def FLAGS_SYN : Nat := 1

/-- `FLAGS_ACK = 0x2` from the source. -/
def FLAGS_ACK : Nat := 2

/-- `FLAGS_FIN = 0x4` from the source. -/
def FLAGS_FIN : Nat := 4

/-- `DATA_SIZE = 994` from the source. -/
def DATA_SIZE : Nat := 994

/-- `MAX_PACKET_SIZE = 1000` from the source. -/
def MAX_PACKET_SIZE : Nat := 1000

/-- Two little-endian bytes of a u16, as produced by `struct.pack("HHH", ...)`
for each field. -/
def u16Bytes (n : Nat) : List Nat := [n % 256, n / 256 % 256]

/-- Reassemble a u16 from its two little-endian bytes, as done by
`struct.unpack("HHH", ...)` per field. -/
def u16OfBytes (b0 b1 : Nat) : Nat := b0 + 256 * b1

/-- Four little-endian bytes of a u32, as produced by `struct.pack("I", ...)`. -/
def u32Bytes (n : Nat) : List Nat :=
  [n % 256, n / 256 % 256, n / 65536 % 256, n / 16777216 % 256]

/-- Reassemble a u32 from its four little-endian bytes, as done by
`struct.unpack("I", ...)`. -/
def u32OfBytes (c0 c1 c2 c3 : Nat) : Nat :=
  c0 + 256 * c1 + 65536 * c2 + 16777216 * c3

/-- Error kinds raised by the parsing functions: `struct.error` on a header
shorter than 6 bytes, and the explicit
`ValueError("Incomplete file size data received")` in `parseSynPacket`. -/
inductive ParseError where
  | malformedHeader
  | incompleteFileSize
  deriving DecidableEq, Repr

/-- `createPacket(seq_num, ack_num, flags, data)`: packs the three u16 header
fields with `struct.pack("HHH", ...)` and appends the payload. -/
def createPacket (seq_num ack_num flags : Nat) (data : List Nat) : List Nat :=
  u16Bytes seq_num ++ u16Bytes ack_num ++ u16Bytes flags ++ data

/-- `parsePacket(packet)`: slices the first `HEADER_SIZE` bytes as header and
the rest as data, then unpacks the header with `struct.unpack("HHH", ...)`.
With fewer than 6 bytes, `struct.unpack` raises (`malformedHeader`). -/
def parsePacket (packet : List Nat) :
    Except ParseError (Nat × Nat × Nat × List Nat) :=
  match packet with
  | b0 :: b1 :: b2 :: b3 :: b4 :: b5 :: rest =>
      .ok (u16OfBytes b0 b1, u16OfBytes b2 b3, u16OfBytes b4 b5, rest)
  | _ => .error .malformedHeader

/-- `createSynPacket(seq_num, ack_num, flags, file_size)`: the 6-byte header
followed by `struct.pack("I", file_size)`. -/
def createSynPacket (seq_num ack_num flags file_size : Nat) : List Nat :=
  u16Bytes seq_num ++ u16Bytes ack_num ++ u16Bytes flags ++ u32Bytes file_size

/-- `parseSynPacket(packet)`: unpacks the 6-byte header (raising on fewer than
6 bytes), then takes `packet[6:10]` as the file size, raising
`ValueError` (`incompleteFileSize`) when fewer than 4 bytes follow the
header. -/
def parseSynPacket (packet : List Nat) :
    Except ParseError (Nat × Nat × Nat × Nat) :=
  match packet with
  | b0 :: b1 :: b2 :: b3 :: b4 :: b5 :: c0 :: c1 :: c2 :: c3 :: _ =>
      .ok (u16OfBytes b0 b1, u16OfBytes b2 b3, u16OfBytes b4 b5,
        u32OfBytes c0 c1 c2 c3)
  | _ :: _ :: _ :: _ :: _ :: _ :: _ => .error .incompleteFileSize
  | _ => .error .malformedHeader

theorem u16_round (n : Nat) (h : n < 65536) :
    u16OfBytes (n % 256) (n / 256 % 256) = n := by
  unfold u16OfBytes
  omega

theorem u32_round (n : Nat) (h : n < 4294967296) :
    u32OfBytes (n % 256) (n / 256 % 256) (n / 65536 % 256)
      (n / 16777216 % 256) = n := by
  unfold u32OfBytes
  omega

theorem parse_create (seq_num ack_num flags : Nat) (data : List Nat)
    (h1 : seq_num < 65536) (h2 : ack_num < 65536) (h3 : flags < 65536) :
    parsePacket (createPacket seq_num ack_num flags data) =
      .ok (seq_num, ack_num, flags, data) := by
  simp only [createPacket, u16Bytes, List.cons_append, List.nil_append,
    parsePacket]
  rw [u16_round seq_num h1, u16_round ack_num h2, u16_round flags h3]

theorem parse_createSyn (seq_num ack_num flags file_size : Nat)
    (h1 : seq_num < 65536) (h2 : ack_num < 65536) (h3 : flags < 65536)
    (h4 : file_size < 4294967296) :
    parseSynPacket (createSynPacket seq_num ack_num flags file_size) =
      .ok (seq_num, ack_num, flags, file_size) := by
  simp only [createSynPacket, u16Bytes, u32Bytes, List.cons_append,
    List.nil_append, parseSynPacket]
  rw [u16_round seq_num h1, u16_round ack_num h2, u16_round flags h3,
    u32_round file_size h4]

/-- C5: packet framing round-trips: for u16 seq, ack, flags and any payload of
length at most `DATA_SIZE`, `parsePacket` inverts `createPacket`; and for u32
file sizes, `parseSynPacket` inverts `createSynPacket`. -/
theorem C5_framing_roundtrip (seq_num ack_num flags file_size : Nat)
    (data : List Nat) (h1 : seq_num < 65536) (h2 : ack_num < 65536)
    (h3 : flags < 65536) (h4 : data.length ≤ DATA_SIZE)
    (h5 : file_size < 4294967296) :
    parsePacket (createPacket seq_num ack_num flags data) =
      .ok (seq_num, ack_num, flags, data) ∧
    parseSynPacket (createSynPacket seq_num ack_num flags file_size) =
      .ok (seq_num, ack_num, flags, file_size) :=
  ⟨parse_create seq_num ack_num flags data h1 h2 h3,
   parse_createSyn seq_num ack_num flags file_size h1 h2 h3 h5⟩

/-- Witness for C5 at a concrete packet. -/
theorem C5_framing_roundtrip_witness :
    parsePacket (createPacket 7 9 2 [10, 20, 30]) = .ok (7, 9, 2, [10, 20, 30]) ∧
    parseSynPacket (createSynPacket 7 9 2 123456) = .ok (7, 9, 2, 123456) :=
  C5_framing_roundtrip 7 9 2 123456 [10, 20, 30] (by decide) (by decide)
    (by decide) (by decide) (by decide)

/-- C9: decoding fails on short inputs with distinct error kinds: `parsePacket`
on fewer than 6 bytes yields `malformedHeader`; `parseSynPacket` with a
complete 6-byte header but fewer than 4 trailing bytes yields the distinct
`incompleteFileSize`; and neither fails on inputs of sufficient length. -/
theorem C9_short_input_errors :
    (∀ packet : List Nat, packet.length < HEADER_SIZE →
      parsePacket packet = .error .malformedHeader) ∧
    (∀ packet : List Nat, HEADER_SIZE ≤ packet.length →
      packet.length < HEADER_SIZE + 4 →
      parseSynPacket packet = .error .incompleteFileSize) ∧
    ParseError.malformedHeader ≠ ParseError.incompleteFileSize ∧
    (∀ packet : List Nat, HEADER_SIZE ≤ packet.length →
      ∃ s a f d, parsePacket packet = .ok (s, a, f, d)) ∧
    (∀ packet : List Nat, HEADER_SIZE + 4 ≤ packet.length →
      ∃ s a f fs, parseSynPacket packet = .ok (s, a, f, fs)) := by
  refine ⟨?_, ?_, by decide, ?_, ?_⟩
  · intro packet h
    match packet with
    | [] => rfl
    | [_] => rfl
    | [_, _] => rfl
    | [_, _, _] => rfl
    | [_, _, _, _] => rfl
    | [_, _, _, _, _] => rfl
    | _ :: _ :: _ :: _ :: _ :: _ :: _ =>
      simp [HEADER_SIZE] at h
      omega
  · intro packet h6 h10
    match packet with
    | [] => simp [HEADER_SIZE] at h6
    | [_] => simp [HEADER_SIZE] at h6
    | [_, _] => simp [HEADER_SIZE] at h6
    | [_, _, _] => simp [HEADER_SIZE] at h6
    | [_, _, _, _] => simp [HEADER_SIZE] at h6
    | [_, _, _, _, _] => simp [HEADER_SIZE] at h6
    | [_, _, _, _, _, _] => rfl
    | [_, _, _, _, _, _, _] => rfl
    | [_, _, _, _, _, _, _, _] => rfl
    | [_, _, _, _, _, _, _, _, _] => rfl
    | _ :: _ :: _ :: _ :: _ :: _ :: _ :: _ :: _ :: _ :: _ =>
      simp [HEADER_SIZE] at h10
      omega
  · intro packet h
    match packet with
    | b0 :: b1 :: b2 :: b3 :: b4 :: b5 :: rest =>
      exact ⟨_, _, _, _, rfl⟩
    | [] => simp [HEADER_SIZE] at h
    | [_] => simp [HEADER_SIZE] at h
    | [_, _] => simp [HEADER_SIZE] at h
    | [_, _, _] => simp [HEADER_SIZE] at h
    | [_, _, _, _] => simp [HEADER_SIZE] at h
    | [_, _, _, _, _] => simp [HEADER_SIZE] at h
  · intro packet h
    match packet with
    | b0 :: b1 :: b2 :: b3 :: b4 :: b5 :: c0 :: c1 :: c2 :: c3 :: rest =>
      exact ⟨_, _, _, _, rfl⟩
    | [] => simp [HEADER_SIZE] at h
    | [_] => simp [HEADER_SIZE] at h
    | [_, _] => simp [HEADER_SIZE] at h
    | [_, _, _] => simp [HEADER_SIZE] at h
    | [_, _, _, _] => simp [HEADER_SIZE] at h
    | [_, _, _, _, _] => simp [HEADER_SIZE] at h
    | [_, _, _, _, _, _] => simp [HEADER_SIZE] at h
    | [_, _, _, _, _, _, _] => simp [HEADER_SIZE] at h
    | [_, _, _, _, _, _, _, _] => simp [HEADER_SIZE] at h
    | [_, _, _, _, _, _, _, _, _] => simp [HEADER_SIZE] at h

/-- Witness for C9 at concrete buffers: a 2-byte buffer for `parsePacket` and
an 8-byte buffer (6-byte header, 2 trailing bytes) for `parseSynPacket`. -/
theorem C9_short_input_errors_witness :
    parsePacket [1, 2] = .error .malformedHeader ∧
    parseSynPacket [1, 2, 3, 4, 5, 6, 7, 8] = .error .incompleteFileSize ∧
    (∃ s a f d, parsePacket [1, 2, 3, 4, 5, 6] = .ok (s, a, f, d)) ∧
    (∃ s a f fs,
      parseSynPacket [1, 2, 3, 4, 5, 6, 7, 8, 9, 10] = .ok (s, a, f, fs)) :=
  ⟨C9_short_input_errors.1 [1, 2] (by decide),
   C9_short_input_errors.2.1 [1, 2, 3, 4, 5, 6, 7, 8] (by decide) (by decide),
   C9_short_input_errors.2.2.2.1 [1, 2, 3, 4, 5, 6] (by decide),
   C9_short_input_errors.2.2.2.2 [1, 2, 3, 4, 5, 6, 7, 8, 9, 10] (by decide)⟩

/-- The 994-byte chunk of the source file that packet `seq_num` carries:
`file.seek(DATA_SIZE * (seq_num - 1)); file.read(DATA_SIZE)`.  The file is a
byte list; the read position is not part of the state because every read in
the source is preceded by an absolute seek. -/
def chunk (fileBytes : List Nat) (seq_num : Nat) : List Nat :=
  (fileBytes.drop (DATA_SIZE * (seq_num - 1))).take DATA_SIZE

/-- Result of one `sendPacket` call: the returned boolean, the datagram put on
the socket (if any), and the window list after the call (the source mutates
the caller's list in place). -/
structure SendResult where
  success : Bool
  sent : Option (List Nat)
  window : List Nat
  deriving DecidableEq, Repr

/-- `sendPacket(seq_num, window, file, sock, retransmit, server_address)`:
if `seq_num` is not in the window, read the chunk at its offset; an empty
read returns `False` before the window is touched, otherwise the sequence
number is appended to the window.  If `seq_num` is already in the window the
chunk is re-read and the window is left alone.  Either way the datagram is
`createPacket(seq_num, 0, 0, data)`.  Logging and timestamps are out of
scope. -/
def sendPacket (seq_num : Nat) (window : List Nat) (fileBytes : List Nat) :
    SendResult :=
  if seq_num ∉ window then
    let data := chunk fileBytes seq_num
    if data = [] then ⟨false, none, window⟩
    else ⟨true, some (createPacket seq_num 0 0 data), window ++ [seq_num]⟩
  else
    ⟨true, some (createPacket seq_num 0 0 (chunk fileBytes seq_num)), window⟩

/-- Python dict assignment `m[k] = v` on an insertion-ordered association
list: overwrite the value in place when the key is present, append
otherwise. -/
def setKey (m : List (Nat × Nat)) (k v : Nat) : List (Nat × Nat) :=
  if m.any (fun p => decide (p.1 = k)) then
    m.map (fun p => if p.1 = k then (k, v) else p)
  else m ++ [(k, v)]

/-- The sender's mutable loop state in `sendFile`: the sliding window list
`window`, the dict `unack_packets` mapping in-flight sequence numbers to the
time of their last (re)send (time abstracted to a Nat), and the next unused
sequence number `seq_num`. -/
structure SenderState where
  window : List Nat
  unack_packets : List (Nat × Nat)
  seq_num : Nat
  deriving DecidableEq, Repr

/-- The admission loop
`while len(window) < window_size: if sendPacket(...): unack_packets[seq_num] = now; seq_num += 1 else: break`,
run with explicit fuel.  Any fuel at least `W - |window|` reproduces the
source loop exactly when all window members are below `seq_num` (which the
sender invariant guarantees), because each successful call then grows the
window by one. -/
def fillWindow : Nat → Nat → List Nat → Nat → SenderState → SenderState
  | 0, _, _, _, st => st
  | fuel + 1, W, fileBytes, now, st =>
    if st.window.length < W then
      let r := sendPacket st.seq_num st.window fileBytes
      if r.success then
        fillWindow fuel W fileBytes now
          ⟨r.window, setKey st.unack_packets st.seq_num now, st.seq_num + 1⟩
      else st
    else st

/-- The sender's handling of a received ACK-flagged packet with ack number
`ack_num`: keep only window members and unacknowledged entries strictly above
`ack_num` (cumulative acknowledgment), then refill the window up to `W`. -/
def recvAckStep (W : Nat) (fileBytes : List Nat) (now : Nat)
    (st : SenderState) (ack_num : Nat) : SenderState :=
  fillWindow W W fileBytes now
    ⟨st.window.filter (fun s => decide (ack_num < s)),
     st.unack_packets.filter (fun p => decide (ack_num < p.1)),
     st.seq_num⟩

/-- The sender's handling of any received packet in the data loop: only
ACK-flagged packets are acted on, everything else falls through. -/
def senderRecvStep (W : Nat) (fileBytes : List Nat) (now : Nat)
    (st : SenderState) (ack_num flags : Nat) : SenderState :=
  if flags &&& FLAGS_ACK ≠ 0 then recvAckStep W fileBytes now st ack_num
  else st

/-- The body of `for seq in window:` in the sender's timeout handler: call
`sendPacket` for each outstanding sequence number and refresh its
`unack_packets` entry.  Returns the final window, the final map, and the
datagrams sent (in order). -/
def retransmitAll (fileBytes : List Nat) (now : Nat) :
    List Nat → List Nat → List (Nat × Nat) →
    List Nat × List (Nat × Nat) × List (List Nat)
  | [], w, u => (w, u, [])
  | s :: rest, w, u =>
    let r := sendPacket s w fileBytes
    let u1 := setKey u s now
    let res := retransmitAll fileBytes now rest r.window u1
    (res.1, res.2.1, r.sent.toList ++ res.2.2)

/-- The sender's receive-timeout handler in the Established state: retransmit
every window member and refresh its send time; `seq_num` is untouched. -/
def timeoutStep (fileBytes : List Nat) (now : Nat) (st : SenderState) :
    SenderState × List (List Nat) :=
  let res := retransmitAll fileBytes now st.window st.window st.unack_packets
  (⟨res.1, res.2.1, st.seq_num⟩, res.2.2)

/-- The sender's data-loop invariant relative to the most recently processed
cumulative ack `a`: the window respects the configured bound `W`, has no
duplicates, and every member lies strictly between `a` and the next unused
sequence number; all unacknowledged-map keys are below `seq_num` as well. -/
abbrev SenderInv (W a : Nat) (st : SenderState) : Prop :=
  st.window.length ≤ W ∧ st.window.Nodup ∧ a < st.seq_num ∧
  (∀ s ∈ st.window, a < s ∧ s < st.seq_num) ∧
  (∀ p ∈ st.unack_packets, p.1 < st.seq_num)

theorem sendPacket_mem (seq_num : Nat) (window fileBytes : List Nat)
    (h : seq_num ∈ window) :
    sendPacket seq_num window fileBytes =
      ⟨true, some (createPacket seq_num 0 0 (chunk fileBytes seq_num)),
        window⟩ := by
  simp [sendPacket, h]

theorem sendPacket_new_eof (seq_num : Nat) (window fileBytes : List Nat)
    (h : seq_num ∉ window) (he : chunk fileBytes seq_num = []) :
    sendPacket seq_num window fileBytes = ⟨false, none, window⟩ := by
  simp [sendPacket, h, he]

theorem sendPacket_new (seq_num : Nat) (window fileBytes : List Nat)
    (h : seq_num ∉ window) (he : chunk fileBytes seq_num ≠ []) :
    sendPacket seq_num window fileBytes =
      ⟨true, some (createPacket seq_num 0 0 (chunk fileBytes seq_num)),
        window ++ [seq_num]⟩ := by
  simp [sendPacket, h, he]

theorem setKey_notMem (m : List (Nat × Nat)) (k v : Nat)
    (h : ∀ p ∈ m, p.1 ≠ k) : setKey m k v = m ++ [(k, v)] := by
  unfold setKey
  rw [if_neg]
  simp only [List.any_eq_true, decide_eq_true_eq, not_exists, not_and]
  intro p hp
  exact h p hp

theorem fillWindow_spec (W now a : Nat) (fileBytes : List Nat) :
    ∀ (fuel : Nat) (st : SenderState), SenderInv W a st →
    ∃ freshW freshU,
      (fillWindow fuel W fileBytes now st).window = st.window ++ freshW ∧
      (∀ s ∈ freshW, st.seq_num ≤ s) ∧
      (fillWindow fuel W fileBytes now st).unack_packets =
        st.unack_packets ++ freshU ∧
      (∀ p ∈ freshU, st.seq_num ≤ p.1) ∧
      SenderInv W a (fillWindow fuel W fileBytes now st) ∧
      st.seq_num ≤ (fillWindow fuel W fileBytes now st).seq_num ∧
      (W ≤ fuel + st.window.length →
        W ≤ (fillWindow fuel W fileBytes now st).window.length ∨
          chunk fileBytes (fillWindow fuel W fileBytes now st).seq_num = []) := by
  intro fuel
  induction fuel with
  | zero =>
    intro st hInv
    refine ⟨[], [], by simp [fillWindow], by simp, by simp [fillWindow],
      by simp, by simpa [fillWindow] using hInv, by simp [fillWindow], ?_⟩
    intro h
    left
    simpa [fillWindow] using h
  | succ fuel ih =>
    intro st hInv
    obtain ⟨hlen, hnodup, ha, hmem, hkeys⟩ := hInv
    by_cases hW : st.window.length < W
    · have hnot : st.seq_num ∉ st.window := fun hc =>
        absurd (hmem _ hc).2 (lt_irrefl _)
      by_cases hch : chunk fileBytes st.seq_num = []
      · have hsp := sendPacket_new_eof st.seq_num st.window fileBytes hnot hch
        have hfw : fillWindow (fuel + 1) W fileBytes now st = st := by
          simp [fillWindow, hW, hsp]
        rw [hfw]
        exact ⟨[], [], by simp, by simp, by simp, by simp,
          ⟨hlen, hnodup, ha, hmem, hkeys⟩, Nat.le_refl _,
          fun _ => Or.inr hch⟩
      · have hsp := sendPacket_new st.seq_num st.window fileBytes hnot hch
        have hset : setKey st.unack_packets st.seq_num now =
            st.unack_packets ++ [(st.seq_num, now)] :=
          setKey_notMem _ _ _ (fun p hp => Nat.ne_of_lt (hkeys p hp))
        set st' : SenderState :=
          ⟨st.window ++ [st.seq_num],
           setKey st.unack_packets st.seq_num now, st.seq_num + 1⟩ with hst'
        have hfw : fillWindow (fuel + 1) W fileBytes now st =
            fillWindow fuel W fileBytes now st' := by
          simp [fillWindow, hW, hsp, hst']
        have hInv' : SenderInv W a st' := by
          refine ⟨?_, ?_, ?_, ?_, ?_⟩
          · simpa [hst'] using hW
          · simp only [hst']
            refine List.Nodup.append hnodup (List.nodup_singleton _) ?_
            intro x hx hy
            simp only [List.mem_singleton] at hy
            exact hnot (hy ▸ hx)
          · simp only [hst']
            omega
          · intro s hs
            simp only [hst', List.mem_append, List.mem_singleton] at hs
            rcases hs with hs | hs
            · exact ⟨(hmem s hs).1, Nat.lt_succ_of_lt (hmem s hs).2⟩
            · exact hs ▸ ⟨ha, Nat.lt_succ_self _⟩
          · intro p hp
            simp only [hst', hset, List.mem_append, List.mem_singleton] at hp
            rcases hp with hp | hp
            · exact Nat.lt_succ_of_lt (hkeys p hp)
            · simp [hp]
        obtain ⟨fW, fU, h1, h2, h3, h4, h5, h6, h7⟩ := ih st' hInv'
        refine ⟨st.seq_num :: fW, (st.seq_num, now) :: fU, ?_, ?_, ?_, ?_,
          ?_, ?_, ?_⟩
        · rw [hfw, h1]
          simp [hst']
        · intro s hs
          rcases List.mem_cons.mp hs with hs | hs
          · exact hs ▸ Nat.le_refl _
          · have := h2 s hs
            simp only [hst'] at this
            omega
        · rw [hfw, h3]
          simp only [hst', hset]
          simp
        · intro p hp
          rcases List.mem_cons.mp hp with hp | hp
          · simp [hp]
          · have := h4 p hp
            simp only [hst'] at this
            omega
        · rw [hfw]
          exact h5
        · rw [hfw]
          have : st.seq_num ≤ st'.seq_num := by
            simp only [hst']
            omega
          omega
        · intro hge
          rw [hfw]
          apply h7
          simp only [hst', List.length_append, List.length_singleton]
          omega
    · have hfw : fillWindow (fuel + 1) W fileBytes now st = st := by
        simp [fillWindow, hW]
      rw [hfw]
      exact ⟨[], [], by simp, by simp, by simp, by simp,
        ⟨hlen, hnodup, ha, hmem, hkeys⟩, Nat.le_refl _,
        fun _ => Or.inl (Nat.le_of_not_lt hW)⟩

theorem retransmitAll_spec (fileBytes : List Nat) (now : Nat) :
    ∀ (seqs w : List Nat) (u : List (Nat × Nat)), (∀ s ∈ seqs, s ∈ w) →
    retransmitAll fileBytes now seqs w u =
      (w, seqs.foldl (fun m s => setKey m s now) u,
        seqs.map (fun s => createPacket s 0 0 (chunk fileBytes s))) := by
  intro seqs
  induction seqs with
  | nil =>
    intro w u h
    simp [retransmitAll]
  | cons s rest ih =>
    intro w u h
    have hs : s ∈ w := h s (List.mem_cons_self _ _)
    have hsp := sendPacket_mem s w fileBytes hs
    have hr := ih w (setKey u s now)
      (fun x hx => h x (List.mem_cons_of_mem _ hx))
    simp [retransmitAll, hsp, hr]

theorem filter_inv (W a A : Nat) (st : SenderState) (hInv : SenderInv W a st)
    (hA : A < st.seq_num) :
    SenderInv W A
      ⟨st.window.filter (fun s => decide (A < s)),
       st.unack_packets.filter (fun p => decide (A < p.1)), st.seq_num⟩ := by
  obtain ⟨hlen, hnodup, ha, hmem, hkeys⟩ := hInv
  refine ⟨?_, ?_, hA, ?_, ?_⟩
  · exact le_trans (List.length_filter_le _ _) hlen
  · exact hnodup.filter _
  · intro s hs
    rw [List.mem_filter] at hs
    exact ⟨by simpa using hs.2, (hmem s hs.1).2⟩
  · intro p hp
    rw [List.mem_filter] at hp
    exact hkeys p hp.1

/-- C1: in the Established data loop, an incoming ACK with ack number `A` is
cumulative: every window member at most `A` is removed from the window and
from the unacknowledged map, every member above `A` is retained (in order),
and the window is refilled with fresh sequence numbers up to the configured
size `W` (stopping early only at end of file). -/
theorem C1_cumulative_ack (W a A now : Nat) (fileBytes : List Nat)
    (st : SenderState) (hInv : SenderInv W a st) (hA : A < st.seq_num) :
    ∃ freshW freshU,
      (recvAckStep W fileBytes now st A).window =
        st.window.filter (fun s => decide (A < s)) ++ freshW ∧
      (∀ s ∈ freshW, st.seq_num ≤ s) ∧
      (∀ s ∈ st.window, s ≤ A →
        s ∉ (recvAckStep W fileBytes now st A).window) ∧
      (recvAckStep W fileBytes now st A).unack_packets =
        st.unack_packets.filter (fun p => decide (A < p.1)) ++ freshU ∧
      (∀ p ∈ freshU, st.seq_num ≤ p.1) ∧
      (recvAckStep W fileBytes now st A).window.length ≤ W ∧
      (W ≤ (recvAckStep W fileBytes now st A).window.length ∨
        chunk fileBytes (recvAckStep W fileBytes now st A).seq_num = []) := by
  have hInv0 := filter_inv W a A st hInv hA
  obtain ⟨fW, fU, h1, h2, h3, h4, h5, h6, h7⟩ :=
    fillWindow_spec W now A fileBytes W
      ⟨st.window.filter (fun s => decide (A < s)),
       st.unack_packets.filter (fun p => decide (A < p.1)), st.seq_num⟩ hInv0
  refine ⟨fW, fU, h1, h2, ?_, h3, h4, h5.1, h7 (Nat.le_add_right _ _)⟩
  intro s hs hsA hres
  simp only [recvAckStep] at hres
  rw [h1, List.mem_append] at hres
  rcases hres with hres | hres
  · rw [List.mem_filter] at hres
    have : A < s := by simpa using hres.2
    omega
  · have h2s := h2 s hres
    have := (hInv.2.2.2.1 s hs).2
    omega

/-- C2: the sliding-window invariant of the sender's data loop: it holds at
the loop entry state (empty window, `seq_num = 1`); the admission loop and
the cumulative-ACK step preserve it (so the window never exceeds `W` and
every member stays above the most recently processed ack number); the
admission loop only adds members and the ACK step retains every member above
the ack, so membership is removed only by cumulative-ACK advancement; and a
receive-timeout leaves the window membership unchanged. -/
theorem C2_window_invariant (W a A now fuel : Nat) (fileBytes : List Nat)
    (st : SenderState) (hInv : SenderInv W a st) (hA : A < st.seq_num) :
    SenderInv W 0 ⟨[], [], 1⟩ ∧
    SenderInv W a (fillWindow fuel W fileBytes now st) ∧
    (∀ s ∈ st.window, s ∈ (fillWindow fuel W fileBytes now st).window) ∧
    SenderInv W A (recvAckStep W fileBytes now st A) ∧
    (∀ s ∈ st.window, A < s →
      s ∈ (recvAckStep W fileBytes now st A).window) ∧
    (timeoutStep fileBytes now st).1.window = st.window := by
  obtain ⟨fW, fU, h1, h2, h3, h4, h5, h6, h7⟩ :=
    fillWindow_spec W now a fileBytes fuel st hInv
  have hInv0 := filter_inv W a A st hInv hA
  obtain ⟨gW, gU, g1, g2, g3, g4, g5, g6, g7⟩ :=
    fillWindow_spec W now A fileBytes W
      ⟨st.window.filter (fun s => decide (A < s)),
       st.unack_packets.filter (fun p => decide (A < p.1)), st.seq_num⟩ hInv0
  refine ⟨?_, h5, ?_, g5, ?_, ?_⟩
  · exact ⟨by simp, by simp, by norm_num, by simp, by simp⟩
  · intro s hs
    rw [h1, List.mem_append]
    exact Or.inl hs
  · intro s hs hsA
    have : s ∈ st.window.filter (fun x => decide (A < x)) := by
      rw [List.mem_filter]
      exact ⟨hs, by simpa using hsA⟩
    simp only [recvAckStep]
    rw [g1, List.mem_append]
    exact Or.inl this
  · have h := retransmitAll_spec fileBytes now st.window st.window
      st.unack_packets (fun _ hs => hs)
    simp [timeoutStep, h]

/-- A concrete mid-transfer sender state used by the example witnesses:
window `{3,4,5,6}`, matching unacknowledged map, next sequence number 7. -/
def stC1 : SenderState :=
  ⟨[3, 4, 5, 6], [(3, 10), (4, 11), (5, 12), (6, 13)], 7⟩

/-- Witness for C1: on window `{3,4,5,6}` and an ACK with ack number 4, the
retained members are exactly `{5,6}`. -/
theorem C1_cumulative_ack_witness :
    (∃ freshW freshU,
      (recvAckStep 4 [] 99 stC1 4).window =
        stC1.window.filter (fun s => decide (4 < s)) ++ freshW ∧
      (∀ s ∈ freshW, stC1.seq_num ≤ s) ∧
      (∀ s ∈ stC1.window, s ≤ 4 → s ∉ (recvAckStep 4 [] 99 stC1 4).window) ∧
      (recvAckStep 4 [] 99 stC1 4).unack_packets =
        stC1.unack_packets.filter (fun p => decide (4 < p.1)) ++ freshU ∧
      (∀ p ∈ freshU, stC1.seq_num ≤ p.1) ∧
      (recvAckStep 4 [] 99 stC1 4).window.length ≤ 4 ∧
      (4 ≤ (recvAckStep 4 [] 99 stC1 4).window.length ∨
        chunk [] (recvAckStep 4 [] 99 stC1 4).seq_num = [])) ∧
    stC1.window.filter (fun s => decide (4 < s)) = [5, 6] :=
  ⟨C1_cumulative_ack 4 0 4 99 [] stC1 (by decide) (by decide), by decide⟩

/-- Witness for C2 at the same concrete state. -/
theorem C2_window_invariant_witness :
    SenderInv 4 0 ⟨[], [], 1⟩ ∧
    SenderInv 4 0 (fillWindow 2 4 [] 99 stC1) ∧
    (∀ s ∈ stC1.window, s ∈ (fillWindow 2 4 [] 99 stC1).window) ∧
    SenderInv 4 4 (recvAckStep 4 [] 99 stC1 4) ∧
    (∀ s ∈ stC1.window, 4 < s → s ∈ (recvAckStep 4 [] 99 stC1 4).window) ∧
    (timeoutStep [] 99 stC1).1.window = stC1.window :=
  C2_window_invariant 4 0 4 99 2 [] stC1 (by decide) (by decide)

/-- C4: a receive-timeout in the Established state retransmits the entire
outstanding window: the datagrams sent are exactly, in window order, the
packets `createPacket(seq, 0, 0, chunk(seq))` with the payload re-read from
file offset `DATA_SIZE * (seq - 1)` — byte-identical to the original sends,
which used the same constructor on the same file — every window member's
send-time entry is refreshed to the current time, and the window membership
and the next sequence number are unchanged. -/
theorem C4_timeout_retransmits_window (fileBytes : List Nat) (now : Nat)
    (st : SenderState) :
    (timeoutStep fileBytes now st).2 =
      st.window.map (fun s => createPacket s 0 0 (chunk fileBytes s)) ∧
    (timeoutStep fileBytes now st).1.window = st.window ∧
    (timeoutStep fileBytes now st).1.unack_packets =
      st.window.foldl (fun m s => setKey m s now) st.unack_packets ∧
    (timeoutStep fileBytes now st).1.seq_num = st.seq_num := by
  have h := retransmitAll_spec fileBytes now st.window st.window
    st.unack_packets (fun _ hs => hs)
  simp [timeoutStep, h]

/-- The receiver's mutable loop state in `receiveFile`: the next expected
sequence number, the insertion-ordered received-data dict, and the optional
single discard directive. -/
structure ReceiverState where
  expected_seq_num : Nat
  received_data : List (Nat × List Nat)
  discard : Option Nat
  deriving DecidableEq, Repr

/-- Outcome of one iteration of the receiver's data loop: the new state, the
pure-ACK datagrams sent, and the FIN-ACK datagram when the FIN branch fired
(after which the loop breaks). -/
structure ReceiverOut where
  state : ReceiverState
  acks : List (List Nat)
  finReply : Option (List Nat)
  deriving DecidableEq, Repr

/-- Python dict assignment `received_data[k] = v` on an insertion-ordered
association list. -/
def setPayload (m : List (Nat × List Nat)) (k : Nat) (v : List Nat) :
    List (Nat × List Nat) :=
  if m.any (fun p => decide (p.1 = k)) then
    m.map (fun p => if p.1 = k then (k, v) else p)
  else m ++ [(k, v)]

/-- One iteration of the receiver's Established loop on a freshly received
packet `(seq_num, ack_num, flags, data)`: if `seq_num` equals the discard
directive, the packet is dropped once and the directive is consumed
(`continue`, so even its FIN flag is ignored); otherwise, if `seq_num` equals
`expected_seq_num` the payload is stored, the pure ACK
`createPacket(0, seq_num, FLAGS_ACK)` is sent and `expected_seq_num` is
incremented, while any other sequence number is logged and dropped; finally a
set FIN flag triggers the reply `createPacket(seq_num + 1, 0,
FLAGS_ACK | FLAGS_FIN)` and ends the loop. -/
def receiverDataStep (st : ReceiverState) (seq_num flags : Nat)
    (data : List Nat) : ReceiverOut :=
  if st.discard = some seq_num then
    ⟨⟨st.expected_seq_num, st.received_data, none⟩, [], none⟩
  else
    let st1 : ReceiverState :=
      if seq_num = st.expected_seq_num then
        ⟨st.expected_seq_num + 1, setPayload st.received_data seq_num data,
          st.discard⟩
      else ⟨st.expected_seq_num, st.received_data, st.discard⟩
    let acks : List (List Nat) :=
      if seq_num = st.expected_seq_num then
        [createPacket 0 seq_num FLAGS_ACK []]
      else []
    if flags &&& FLAGS_FIN ≠ 0 then
      ⟨st1, acks, some (createPacket (seq_num + 1) 0
        (FLAGS_ACK ||| FLAGS_FIN) [])⟩
    else ⟨st1, acks, none⟩

/-- The receiver's Listening handler: on a packet whose flags contain SYN, it
replies with `createSynPacket(seq_num + 1, 0, FLAGS_SYN | FLAGS_ACK,
file_size)` and proceeds; any other packet leaves it waiting (`none`). -/
def listeningStep (seq_num ack_num flags file_size : Nat) :
    Option (List Nat) :=
  if flags &&& FLAGS_SYN ≠ 0 then
    some (createSynPacket (seq_num + 1) 0 (FLAGS_SYN ||| FLAGS_ACK) file_size)
  else none

/-- C3: the receiver's data-phase admission is go-back-N.  On a data packet
(no flags) that the discard directive does not intercept: if its sequence
number equals `expected_seq_num` the payload is stored under that key, the
single pure ACK `createPacket(0, seq_num, FLAGS_ACK)` is sent, and
`expected_seq_num` advances by one; on any other sequence number nothing is
sent, nothing is stored, and `expected_seq_num` is unchanged. -/
theorem C3_go_back_n_receiver (st : ReceiverState) (seq_num : Nat)
    (data : List Nat) (hd : st.discard ≠ some seq_num) :
    (seq_num = st.expected_seq_num →
      (receiverDataStep st seq_num 0 data).acks =
        [createPacket 0 seq_num FLAGS_ACK []] ∧
      (receiverDataStep st seq_num 0 data).state.expected_seq_num =
        st.expected_seq_num + 1 ∧
      (receiverDataStep st seq_num 0 data).state.received_data =
        setPayload st.received_data seq_num data ∧
      (receiverDataStep st seq_num 0 data).finReply = none) ∧
    (seq_num ≠ st.expected_seq_num →
      (receiverDataStep st seq_num 0 data).acks = [] ∧
      (receiverDataStep st seq_num 0 data).state.expected_seq_num =
        st.expected_seq_num ∧
      (receiverDataStep st seq_num 0 data).state.received_data =
        st.received_data ∧
      (receiverDataStep st seq_num 0 data).finReply = none) := by
  constructor
  · intro he
    subst he
    simp [receiverDataStep, hd, FLAGS_FIN]
  · intro hne
    simp [receiverDataStep, hd, hne, FLAGS_FIN]

/-- Witness for C3: with `expected_seq_num = 5` and an arriving packet with
sequence number 7, no ACK is emitted, nothing is stored, and
`expected_seq_num` remains 5. -/
theorem C3_go_back_n_receiver_witness :
    ((7 : Nat) = 5 →
      (receiverDataStep ⟨5, [(1, [42])], none⟩ 7 0 [9]).acks =
        [createPacket 0 7 FLAGS_ACK []] ∧
      (receiverDataStep ⟨5, [(1, [42])], none⟩ 7 0 [9]).state.expected_seq_num
        = 5 + 1 ∧
      (receiverDataStep ⟨5, [(1, [42])], none⟩ 7 0 [9]).state.received_data =
        setPayload [(1, [42])] 7 [9] ∧
      (receiverDataStep ⟨5, [(1, [42])], none⟩ 7 0 [9]).finReply = none) ∧
    ((7 : Nat) ≠ 5 →
      (receiverDataStep ⟨5, [(1, [42])], none⟩ 7 0 [9]).acks = [] ∧
      (receiverDataStep ⟨5, [(1, [42])], none⟩ 7 0 [9]).state.expected_seq_num
        = 5 ∧
      (receiverDataStep ⟨5, [(1, [42])], none⟩ 7 0 [9]).state.received_data =
        [(1, [42])] ∧
      (receiverDataStep ⟨5, [(1, [42])], none⟩ 7 0 [9]).finReply = none) :=
  C3_go_back_n_receiver ⟨5, [(1, [42])], none⟩ 7 [9] (by decide)

/-- The ack-number field of a handshake packet, read back through
`parseSynPacket`. -/
def synAckNumOf (packet : List Nat) : Option Nat :=
  match parseSynPacket packet with
  | .ok (_, ack_num, _, _) => some ack_num
  | .error _ => none

/-- The ack-number field of a data/control packet, read back through
`parsePacket`. -/
def ackNumOf (packet : List Nat) : Option Nat :=
  match parsePacket packet with
  | .ok (_, ack_num, _, _) => some ack_num
  | .error _ => none

/-- C7 counterexample: on a SYN with sequence number 5, the receiver's
SYN-ACK reply carries 0 in its acknowledgment-number field, not `5 + 1`: the
source builds the reply as `createSynPacket(seq_num + 1, 0, FLAGS_SYN |
FLAGS_ACK, file_size)`, placing `seq_num + 1` in the sequence-number field
and 0 in the acknowledgment field.  Likewise the FIN-ACK reply to a FIN with
sequence number 5 carries 0, not 6, in its acknowledgment field. -/
theorem C7_counterexample :
    synAckNumOf ((listeningStep 5 0 FLAGS_SYN 1000).getD []) = some 0 ∧
    synAckNumOf ((listeningStep 5 0 FLAGS_SYN 1000).getD []) ≠ some (5 + 1) ∧
    ackNumOf (((receiverDataStep ⟨6, [], none⟩ 5 FLAGS_FIN []).finReply).getD
      []) = some 0 ∧
    ackNumOf (((receiverDataStep ⟨6, [], none⟩ 5 FLAGS_FIN []).finReply).getD
      []) ≠ some (5 + 1) := by
  refine ⟨by rfl, by decide, by rfl, by decide⟩

/-- C7 (amended): the receiver's replies carry the peer's sequence number
plus one in the *sequence-number* field and 0 in the acknowledgment field:
on a SYN-flagged packet with sequence number `s` it replies with a handshake
packet with flags `SYN|ACK`, sequence number `s + 1`, acknowledgment number
0, echoing the advertised file size; on a FIN-flagged packet with sequence
number `t` it replies with a control packet with flags `FIN|ACK`, sequence
number `t + 1` and acknowledgment number 0. -/
theorem C7_reply_fields_amended (s a f fs t g : Nat) (st : ReceiverState)
    (data : List Nat) (hs : s + 1 < 65536) (hfs : fs < 4294967296)
    (hf : f &&& FLAGS_SYN ≠ 0) (ht : t + 1 < 65536)
    (hg : g &&& FLAGS_FIN ≠ 0) (hd : st.discard ≠ some t) :
    listeningStep s a f fs =
      some (createSynPacket (s + 1) 0 (FLAGS_SYN ||| FLAGS_ACK) fs) ∧
    parseSynPacket (createSynPacket (s + 1) 0 (FLAGS_SYN ||| FLAGS_ACK) fs) =
      .ok (s + 1, 0, FLAGS_SYN ||| FLAGS_ACK, fs) ∧
    (receiverDataStep st t g data).finReply =
      some (createPacket (t + 1) 0 (FLAGS_ACK ||| FLAGS_FIN) []) ∧
    parsePacket (createPacket (t + 1) 0 (FLAGS_ACK ||| FLAGS_FIN) []) =
      .ok (t + 1, 0, FLAGS_ACK ||| FLAGS_FIN, []) := by
  refine ⟨?_, ?_, ?_, ?_⟩
  · simp [listeningStep, hf]
  · exact parse_createSyn (s + 1) 0 (FLAGS_SYN ||| FLAGS_ACK) fs hs
      (by norm_num) (by decide) hfs
  · simp [receiverDataStep, hd, hg]
  · exact parse_create (t + 1) 0 (FLAGS_ACK ||| FLAGS_FIN) [] ht
      (by norm_num) (by decide)

/-- Witness for the amended C7 at concrete inputs. -/
theorem C7_reply_fields_amended_witness :
    listeningStep 5 0 FLAGS_SYN 1000 =
      some (createSynPacket (5 + 1) 0 (FLAGS_SYN ||| FLAGS_ACK) 1000) ∧
    parseSynPacket (createSynPacket (5 + 1) 0 (FLAGS_SYN ||| FLAGS_ACK) 1000)
      = .ok (5 + 1, 0, FLAGS_SYN ||| FLAGS_ACK, 1000) ∧
    (receiverDataStep ⟨6, [], none⟩ 5 FLAGS_FIN []).finReply =
      some (createPacket (5 + 1) 0 (FLAGS_ACK ||| FLAGS_FIN) []) ∧
    parsePacket (createPacket (5 + 1) 0 (FLAGS_ACK ||| FLAGS_FIN) []) =
      .ok (5 + 1, 0, FLAGS_ACK ||| FLAGS_FIN, []) :=
  C7_reply_fields_amended 5 0 FLAGS_SYN 1000 5 FLAGS_FIN ⟨6, [], none⟩ []
    (by decide) (by decide) (by decide) (by decide) (by decide) (by decide)

/-- Outcome of handling one datagram in the sender's SynSent wait loop:
`crashed` models a decoding exception escaping the loop (the loop's handlers
catch only the socket-level exceptions — the `struct.error` and `ValueError`
raised by `parseSynPacket` are not among them, so they propagate and abort
`sendFile`); `keepWaiting` models falling through to the next iteration;
`established` models the `break` on a SYN-ACK. -/
inductive SynSentOutcome where
  | crashed (e : ParseError)
  | keepWaiting
  | established (seq_num ack_num flags file_size : Nat)
  deriving DecidableEq, Repr

/-- The body of the sender's SynSent wait loop applied to one received
datagram: parse it with `parseSynPacket`, break on a packet with both SYN and
ACK set, otherwise loop; a parse failure escapes the loop. -/
def synSentHandle (datagram : List Nat) : SynSentOutcome :=
  match parseSynPacket datagram with
  | .error e => .crashed e
  | .ok (seq_num, ack_num, flags, file_size) =>
    if flags &&& FLAGS_SYN ≠ 0 ∧ flags &&& FLAGS_ACK ≠ 0 then
      .established seq_num ack_num flags file_size
    else .keepWaiting

/-- C8 counterexample: a 7-byte datagram of zero bytes lacks both the SYN and
ACK flags yet is not ignored: `parseSynPacket` raises the incomplete-file-size
`ValueError`, which none of the loop's `except` clauses catches, so the wait
loop aborts instead of continuing to wait. -/
theorem C8_counterexample :
    synSentHandle [0, 0, 0, 0, 0, 0, 0] =
      .crashed .incompleteFileSize ∧
    synSentHandle [0, 0, 0, 0, 0, 0, 0] ≠ .keepWaiting := by
  refine ⟨by rfl, by decide⟩

/-- C8 (amended): while waiting for a SYN-ACK, every incoming datagram of at
least 10 bytes (a full handshake packet) lacking both the SYN and the ACK
flag is ignored and the sender keeps waiting; a shorter datagram instead
makes `parseSynPacket` raise an exception that no handler of the wait loop
catches, aborting it. -/
theorem C8_synsent_ignores_amended (b0 b1 b2 b3 b4 b5 : Nat)
    (rest : List Nat) (hlen : 4 ≤ rest.length)
    (hsyn : u16OfBytes b4 b5 &&& FLAGS_SYN = 0)
    (hack : u16OfBytes b4 b5 &&& FLAGS_ACK = 0) :
    synSentHandle (b0 :: b1 :: b2 :: b3 :: b4 :: b5 :: rest) =
      .keepWaiting := by
  match rest, hlen with
  | c0 :: c1 :: c2 :: c3 :: tail, _ =>
    simp [synSentHandle, parseSynPacket, hsyn]

/-- Witness for the amended C8: a 10-byte all-zero datagram (flags field 0)
leaves the sender waiting. -/
theorem C8_synsent_ignores_amended_witness :
    synSentHandle [0, 0, 0, 0, 0, 0, 0, 0, 0, 0] = .keepWaiting :=
  C8_synsent_ignores_amended 0 0 0 0 0 0 [0, 0, 0, 0] (by decide) (by decide)
    (by decide)

/-- Socket-configuration calls made on a UDP socket before entering a receive
loop. -/
inductive SockOp where
  | setSockTimeoutMs (ms : Nat)
  | bindAddr
  deriving DecidableEq, Repr

/-- The receive wait bound in force after a sequence of socket-configuration
calls: a fresh UDP socket has no timeout (receives block indefinitely) until
a `settimeout` call installs one. -/
def effectiveTimeoutMs (ops : List SockOp) : Option Nat :=
  ops.foldl (fun t op =>
    match op with
    | .setSockTimeoutMs ms => some ms
    | .bindAddr => t) none

/-- The socket-configuration calls `sendFile` performs before its loops:
`sock.settimeout(0.5)` (500 ms). -/
def senderSocketOps : List SockOp := [.setSockTimeoutMs 500]

/-- The socket-configuration calls `receiveFile` performs before its loops:
`sock.bind((ip, port))` only — no `settimeout` call appears anywhere in
`receiveFile`, although its data loop carries an `except socket.timeout`
handler that logs an RTO. -/
def receiverSocketOps : List SockOp := [.bindAddr]

/-- C6 (code evaluated at the failing configuration): the sender's socket has
a 500 ms receive bound, but the receiver's socket is left with no timeout at
all, so every receive in the receiver's data loop can block indefinitely and
the timeout-logging branch is unreachable. -/
theorem C6_receiver_has_no_receive_bound :
    effectiveTimeoutMs receiverSocketOps = none ∧
    effectiveTimeoutMs senderSocketOps = some 500 :=
  ⟨rfl, rfl⟩

/-- C10: probing one sequence number past the last chunk has no observable
effect: when `seq_num` is not in the window and the file has no byte at
offset `DATA_SIZE * (seq_num - 1)`, `sendPacket` returns `False`, sends no
datagram and leaves the window unchanged; consequently the admission loop
hitting this case stops with the whole sender state (window,
unacknowledged map, next sequence number) unchanged. -/
theorem C10_sendPacket_eof_frame (seq_num W fuel now : Nat)
    (window : List Nat) (unack : List (Nat × Nat)) (fileBytes : List Nat)
    (h1 : seq_num ∉ window) (h2 : fileBytes.length ≤ DATA_SIZE * (seq_num - 1)) :
    (sendPacket seq_num window fileBytes).success = false ∧
    (sendPacket seq_num window fileBytes).sent = none ∧
    (sendPacket seq_num window fileBytes).window = window ∧
    (window.length < W →
      fillWindow (fuel + 1) W fileBytes now ⟨window, unack, seq_num⟩ =
        ⟨window, unack, seq_num⟩) := by
  have hch : chunk fileBytes seq_num = [] := by
    unfold chunk
    rw [List.drop_eq_nil_of_le h2]
    rfl
  have hsp := sendPacket_new_eof seq_num window fileBytes h1 hch
  refine ⟨by rw [hsp], by rw [hsp], by rw [hsp], ?_⟩
  intro hW
  simp [fillWindow, hW, hsp]

/-- Witness for C10: sequence number 2 against a 3-byte file. -/
theorem C10_sendPacket_eof_frame_witness :
    (sendPacket 2 [] [1, 2, 3]).success = false ∧
    (sendPacket 2 [] [1, 2, 3]).sent = none ∧
    (sendPacket 2 [] [1, 2, 3]).window = [] ∧
    (List.length ([] : List Nat) < 3 →
      fillWindow (5 + 1) 3 [1, 2, 3] 99 ⟨[], [(1, 7)], 2⟩ =
        ⟨[], [(1, 7)], 2⟩) :=
  C10_sendPacket_eof_frame 2 3 5 99 [] [(1, 7)] [1, 2, 3] (by decide)
    (by decide)

end App
